import Mathlib

/-!
Shallow embedding of the duck-duck-mcp search server (src/index.ts) and
verification of its specification claims.

The embedding models, faithfully to the TypeScript source:
  - the argument schema SearchArgsSchema (zod) over a JSON-like input type,
  - the classifier functions detectContentType, detectLanguage, detectTopics,
  - result normalization processSearchResults, including the hostname
    extraction that can fail on malformed URLs,
  - the CallToolRequestSchema handler with its catch-all error envelope, the
    external search provider being a parameter (its outcome is passed in).

JavaScript strings are modelled as Lean strings (lists of characters); the
JavaScript toLowerCase is modelled by the ASCII case mapping, which agrees
with it on every character the classifiers test for. JavaScript falsiness of
the empty string and of zero is modelled explicitly in jsOrStr and jsOrInt.
-/

/-- A primitive JSON value as it can appear in a request argument field:
a string, a number (modelled as an integer; the fractional part plays no
role in any claim), or some other value (boolean, object, array, null). -/
inductive JPrim where
  | jstr (s : String)
  | jnum (n : Int)
  | jother
deriving DecidableEq

/-- The raw options object of a request, before validation. Each field is
absent or a primitive JSON value. -/
structure RawOptions where
  region : Option JPrim := none
  safeSearch : Option JPrim := none
  numResults : Option JPrim := none
deriving DecidableEq

/-- The raw arguments of a request, before validation. -/
structure RawArgs where
  query : Option JPrim := none
  options : Option RawOptions := none
deriving DecidableEq

/-- The three safe-search levels of the zod enum in SearchArgsSchema. -/
inductive SafeSearchLevel where
  | OFF
  | MODERATE
  | STRICT
deriving DecidableEq

/-- Validated options, with the zod defaults applied: region defaults to
zh-cn, safeSearch to MODERATE, numResults to 50. -/
structure ParsedOptions where
  region : String
  safeSearch : SafeSearchLevel
  numResults : Int
deriving DecidableEq

/-- Validated arguments: query is a string, options stays absent when the
raw request had none (zod optional object, defaults not applied then). -/
structure ParsedArgs where
  query : String
  options : Option ParsedOptions
deriving DecidableEq

/-- The enum membership test of the zod enum OFF | MODERATE | STRICT. -/
def parseSafeSearchLevel : String → Option SafeSearchLevel
  | "OFF" => some SafeSearchLevel.OFF
  | "MODERATE" => some SafeSearchLevel.MODERATE
  | "STRICT" => some SafeSearchLevel.STRICT
  | _ => none

/-- Validation of the region field: string with default zh-cn. -/
def parseRegion : Option JPrim → Except String String
  | none => Except.ok "zh-cn"
  | some (JPrim.jstr s) => Except.ok s
  | some _ => Except.error "Expected string at options.region"

/-- Validation of the safeSearch field: enum with default MODERATE. -/
def parseSafeSearch : Option JPrim → Except String SafeSearchLevel
  | none => Except.ok SafeSearchLevel.MODERATE
  | some (JPrim.jstr s) =>
    match parseSafeSearchLevel s with
    | some l => Except.ok l
    | none => Except.error "Invalid enum value at options.safeSearch"
  | some _ => Except.error "Expected string at options.safeSearch"

/-- Validation of the numResults field: number with default 50. -/
def parseNumResults : Option JPrim → Except String Int
  | none => Except.ok 50
  | some (JPrim.jnum n) => Except.ok n
  | some _ => Except.error "Expected number at options.numResults"

/-- Validation of the inner options object of SearchArgsSchema. The zod
error value is modelled as a description string; zod aggregates issues
where this model reports the first, which no claim depends on. -/
def parseOptions (o : RawOptions) : Except String ParsedOptions :=
  match parseRegion o.region with
  | Except.error e => Except.error e
  | Except.ok region =>
    match parseSafeSearch o.safeSearch with
    | Except.error e => Except.error e
    | Except.ok level =>
      match parseNumResults o.numResults with
      | Except.error e => Except.error e
      | Except.ok num =>
        Except.ok { region := region, safeSearch := level, numResults := num }

/-- Model of SearchArgsSchema.safeParse: query must be a present string
(z.string, with no nonempty refinement), options is an optional object. -/
def safeParse (args : RawArgs) : Except String ParsedArgs :=
  match args.query with
  | none => Except.error "Required at query"
  | some (JPrim.jnum _) => Except.error "Expected string at query"
  | some JPrim.jother => Except.error "Expected string at query"
  | some (JPrim.jstr q) =>
    match args.options with
    | none => Except.ok { query := q, options := none }
    | some o =>
      match parseOptions o with
      | Except.error e => Except.error e
      | Except.ok po => Except.ok { query := q, options := some po }

/-- JavaScript x || d for an optional string value: undefined and the empty
string are falsy. -/
def jsOrStr : Option String → String → String
  | none, d => d
  | some s, d => if s = "" then d else s

/-- JavaScript x || d for an optional number value: undefined and 0 are
falsy. -/
def jsOrInt : Option Int → Int → Int
  | none, d => d
  | some n, d => if n = 0 then d else n

/-- JavaScript s.includes sub: substring containment. -/
def jsIncludes (s sub : String) : Bool :=
  decide (sub.data <:+: s.data)

/-- JavaScript s.toLowerCase, restricted to the ASCII case mapping; every
substring the classifiers test for is ASCII. -/
def toLowerCase (s : String) : String :=
  String.mk (s.data.map Char.toLower)

/-- A raw hit from the external search provider: title, url, description. -/
structure RawHit where
  title : String
  url : String
  description : String
deriving DecidableEq

/-- Model of detectContentType in src/index.ts: lowercase the url, then
first match wins among the documentation, code-hosting and social substring
rules, else article. The content type is the string literal union of the
source: it can be "article", "documentation", "social" or "other". -/
def detectContentType (result : RawHit) : String :=
  let url := toLowerCase result.url
  if jsIncludes url "docs." || jsIncludes url "/docs/" ||
      jsIncludes url "/documentation/" then
    "documentation"
  else if jsIncludes url "github.com" || jsIncludes url "stackoverflow.com" then
    "documentation"
  else if jsIncludes url "twitter.com" || jsIncludes url "facebook.com" ||
      jsIncludes url "linkedin.com" then
    "social"
  else
    "article"

/-- Model of detectLanguage in src/index.ts: the regex test for a character
in the range U+4E00 to U+9FA5. -/
def detectLanguage (query : String) : String :=
  if query.data.any (fun c => decide (0x4e00 ≤ c.toNat ∧ c.toNat ≤ 0x9fa5)) then
    "zh-cn"
  else
    "en"

/-- Insertion into a JavaScript Set, keeping insertion order. -/
def addTopic (acc : List String) (t : String) : List String :=
  if t ∈ acc then acc else acc ++ [t]

/-- One forEach step of detectTopics over a single hit. -/
def topicsStep (acc : List String) (r : RawHit) : List String :=
  let acc1 :=
    if jsIncludes (toLowerCase r.title) "github" then addTopic acc "technology"
    else acc
  if jsIncludes (toLowerCase r.title) "docs" then addTopic acc1 "documentation"
  else acc1

/-- Model of detectTopics in src/index.ts: scan the titles, collecting the
technology and documentation tags into a Set, returned in insertion order. -/
def detectTopics (results : List RawHit) : List String :=
  results.foldl topicsStep []

/-- Splits a list at the first occurrence of the separator sep, returning
the parts before and after it, or none when sep does not occur. -/
def splitAtSep (sep : List Char) : List Char → Option (List Char × List Char)
  | [] => none
  | c :: cs =>
    if decide (sep <+: (c :: cs)) then some ([], (c :: cs).drop sep.length)
    else
      match splitAtSep sep cs with
      | none => none
      | some (pre, post) => some (c :: pre, post)

/-- Model of the hostname extraction new URL(url).hostname performed by
processSearchResults. The URL constructor is platform code external to this
repository; this model keeps what the claims need: a scheme followed by
colon-slash-slash and a nonempty host, anything else failing (the
constructor throwing). -/
def parseHostname (url : String) : Option String :=
  match splitAtSep ("://".data) url.data with
  | none => none
  | some (scheme, rest) =>
    if scheme = [] then none
    else
      let host := rest.takeWhile
        (fun c => decide (c ≠ '/' ∧ c ≠ '?' ∧ c ≠ '#' ∧ c ≠ ':'))
      if host = [] then none else some (String.mk host)

/-- The title decoding of processSearchResults: the two fixed HTML entities
for apostrophe and double quote, each replaced globally. -/
def decodeTitle (t : String) : String :=
  (t.replace "&#x27;" "\x27").replace "&quot;" "\x22"

/-- The per-item metadata of a search result item. -/
structure ItemMetadata where
  type : String
  source : String
deriving DecidableEq

/-- A normalized search result item. -/
structure SearchResultItem where
  title : String
  url : String
  description : String
  metadata : ItemMetadata
deriving DecidableEq

/-- The searchContext part of the response metadata. -/
structure SearchContext where
  region : String
  safeSearch : String
deriving DecidableEq

/-- The queryAnalysis part of the response metadata. -/
structure QueryAnalysis where
  language : String
  topics : List String
deriving DecidableEq

/-- The metadata of a successful response. -/
structure ResponseMetadata where
  query : String
  timestamp : String
  resultCount : Nat
  searchContext : SearchContext
  queryAnalysis : QueryAnalysis
deriving DecidableEq

/-- A successful search response; the type field always holds the string
search_results. -/
structure SearchResponse where
  type : String
  data : List SearchResultItem
  metadata : ResponseMetadata
deriving DecidableEq

/-- Normalization of one raw hit, failing (the thrown TypeError, modelled
by its message) when the URL does not parse. -/
def buildItem (r : RawHit) : Except String SearchResultItem :=
  match parseHostname r.url with
  | none => Except.error ("Invalid URL: " ++ r.url)
  | some host =>
    Except.ok
      { title := decodeTitle r.title
        url := r.url
        description := r.description.trim
        metadata := { type := detectContentType r, source := host } }

/-- Normalization of the hit list, left to right, stopping at the first
failing item as the thrown error does in the source map. -/
def buildItems : List RawHit → Except String (List SearchResultItem)
  | [] => Except.ok []
  | r :: rs =>
    match buildItem r with
    | Except.error e => Except.error e
    | Except.ok item =>
      match buildItems rs with
      | Except.error e => Except.error e
      | Except.ok items => Except.ok (item :: items)

/-- The options argument of processSearchResults: an optional region and an
optional numeric SafeSearchType value. -/
structure ProcOptions where
  region : Option String
  safeSearch : Option Int
deriving DecidableEq

/-- Model of processSearchResults in src/index.ts. The timestamp is passed
in as the value of the wall clock at response construction. The safeSearch
of the searchContext stringifies the numeric enum value when one is given,
the empty-or-absent check being the JavaScript || fallback. -/
def processSearchResults (results : List RawHit) (query : String)
    (options : ProcOptions) (now : String) : Except String SearchResponse :=
  match buildItems results with
  | Except.error e => Except.error e
  | Except.ok items =>
    Except.ok
      { type := "search_results"
        data := items
        metadata :=
          { query := query
            timestamp := now
            resultCount := results.length
            searchContext :=
              { region := jsOrStr options.region "zh-cn"
                safeSearch := jsOrStr (options.safeSearch.map toString) "MODERATE" }
            queryAnalysis :=
              { language := detectLanguage query
                topics := detectTopics results } } }

/-- The numeric value of SafeSearchType.STRICT in the duck-duck-scrape
library, an external dependency whose enum is numeric. -/
def SafeSearchType.STRICT : Int := 0

/-- The numeric value of SafeSearchType.MODERATE in duck-duck-scrape. -/
def SafeSearchType.MODERATE : Int := -1

/-- The numeric value of SafeSearchType.OFF in duck-duck-scrape. -/
def SafeSearchType.OFF : Int := -2

/-- The enum indexing SafeSearchType[level] performed by the handler on a
validated level name. -/
def SafeSearchType.ofLevel : SafeSearchLevel → Int
  | SafeSearchLevel.OFF => SafeSearchType.OFF
  | SafeSearchLevel.MODERATE => SafeSearchType.MODERATE
  | SafeSearchLevel.STRICT => SafeSearchType.STRICT

/-- The arguments the handler passes to the external search call: query,
region, numeric safe search level, and maxResults. -/
structure ProviderCall where
  query : String
  region : String
  safeSearch : Int
  maxResults : Int
deriving DecidableEq

/-- The context echoed inside an error envelope: the raw query and options
fields of the original request, as far as they exist. -/
structure ErrorContext where
  query : Option JPrim
  options : Option RawOptions
deriving DecidableEq

/-- The error envelope; the type field always holds the string
search_error. -/
structure SearchError where
  type : String
  message : String
  suggestion : String
  context : ErrorContext
deriving DecidableEq

/-- The outcome of one invoke: a success payload, or an error payload with
the isError flag set on the protocol response. -/
inductive HandlerResult where
  | success (resp : SearchResponse)
  | failure (err : SearchError)
deriving DecidableEq

/-- True exactly when the result carries the isError flag. -/
def HandlerResult.isError : HandlerResult → Bool
  | HandlerResult.success _ => false
  | HandlerResult.failure _ => true

/-- The message of the error envelope, when the result is one. -/
def HandlerResult.errMessage : HandlerResult → Option String
  | HandlerResult.success _ => none
  | HandlerResult.failure e => some e.message

/-- The searchContext of the response, when the result is a success. -/
def HandlerResult.contextOf : HandlerResult → Option SearchContext
  | HandlerResult.success r => some r.metadata.searchContext
  | HandlerResult.failure _ => none

/-- The fixed static suggestion string of every error envelope. -/
def suggestionText : String :=
  "你可以尝试：1. 修改搜索关键词 2. 减少结果数量 3. 更换地区"

/-- The catch-all conversion of a failure into the error envelope: the
message of the thrown error, the fixed suggestion, and the raw request
fields as context. -/
def mkSearchError (message : String) (args : RawArgs) : SearchError :=
  { type := "search_error"
    message := message
    suggestion := suggestionText
    context := { query := args.query, options := args.options } }

/-- A request to the CallToolRequestSchema handler: the tool name and the
raw arguments. -/
structure CallRequest where
  name : String
  arguments : RawArgs
deriving DecidableEq

/-- Model of the CallToolRequestSchema handler in src/index.ts. The
external provider is a parameter holding the outcome the search call would
have: a hit list or a thrown error, modelled by its message. The second
component records the arguments of the provider call when one is made,
none when the provider is never reached. The handler builds the provider
options with region defaulted through the JavaScript || fallback,
safeSearch looked up in the numeric enum when the validated options are
present (a validated level is a nonempty string, hence truthy) and
MODERATE otherwise, and maxResults defaulted through || to 5. -/
def handleCallTool (req : CallRequest) (provider : Except String (List RawHit))
    (now : String) : HandlerResult × Option ProviderCall :=
  if req.name ≠ "search" then
    (HandlerResult.failure
      (mkSearchError ("Unknown tool: " ++ req.name) req.arguments), none)
  else
    match safeParse req.arguments with
    | Except.error e =>
      (HandlerResult.failure
        (mkSearchError ("Invalid arguments: " ++ e) req.arguments), none)
    | Except.ok parsed =>
      let ss : Int :=
        match parsed.options with
        | some o => SafeSearchType.ofLevel o.safeSearch
        | none => SafeSearchType.MODERATE
      let call : ProviderCall :=
        { query := parsed.query
          region := jsOrStr (parsed.options.map ParsedOptions.region) "zh-cn"
          safeSearch := ss
          maxResults := jsOrInt (parsed.options.map ParsedOptions.numResults) 5 }
      match provider with
      | Except.error msg =>
        (HandlerResult.failure (mkSearchError msg req.arguments), some call)
      | Except.ok results =>
        match processSearchResults results parsed.query
            { region := parsed.options.map ParsedOptions.region,
              safeSearch := some ss } now with
        | Except.error msg =>
          (HandlerResult.failure (mkSearchError msg req.arguments), some call)
        | Except.ok resp => (HandlerResult.success resp, some call)

/-- Packing a valid codepoint into a character and back is the identity. -/
theorem toNat_ofNat_valid (n : Nat) (h : n.isValidChar) : (Char.ofNat n).toNat = n := by
  unfold Char.ofNat
  rw [dif_pos h]
  rfl

/-- The ASCII case mapping is idempotent on characters. -/
theorem toLower_toLower (c : Char) : Char.toLower (Char.toLower c) = Char.toLower c := by
  by_cases h : c.toNat ≥ 65 ∧ c.toNat ≤ 90
  · have hv : (c.toNat + 32).isValidChar := Or.inl (by omega)
    have ht : (Char.ofNat (c.toNat + 32)).toNat = c.toNat + 32 := toNat_ofNat_valid _ hv
    have hL : Char.toLower c = Char.ofNat (c.toNat + 32) := by
      show (if c.toNat ≥ 65 ∧ c.toNat ≤ 90 then Char.ofNat (c.toNat + 32) else c) = _
      rw [if_pos h]
    have hL2 : Char.toLower (Char.ofNat (c.toNat + 32)) = Char.ofNat (c.toNat + 32) := by
      show (if (Char.ofNat (c.toNat + 32)).toNat ≥ 65 ∧ (Char.ofNat (c.toNat + 32)).toNat ≤ 90
          then Char.ofNat ((Char.ofNat (c.toNat + 32)).toNat + 32)
          else Char.ofNat (c.toNat + 32)) = _
      rw [if_neg (by omega)]
    rw [hL, hL2]
  · have hL : Char.toLower c = c := by
      show (if c.toNat ≥ 65 ∧ c.toNat ≤ 90 then Char.ofNat (c.toNat + 32) else c) = _
      rw [if_neg h]
    rw [hL, hL]

/-- Lowercasing a string is idempotent. -/
theorem toLowerCase_toLowerCase (s : String) :
    toLowerCase (toLowerCase s) = toLowerCase s := by
  simp only [toLowerCase, List.map_map]
  congr 1
  exact List.map_congr_left (fun c _ => toLower_toLower c)

/-- Substring containment survives lowercasing both strings. -/
theorem jsIncludes_toLowerCase (s sub : String) (h : jsIncludes s sub = true) :
    jsIncludes (toLowerCase s) (toLowerCase sub) = true := by
  have h2 : sub.data <:+: s.data := of_decide_eq_true h
  obtain ⟨p, t, hpt⟩ := h2
  apply decide_eq_true
  refine ⟨p.map Char.toLower, t.map Char.toLower, ?_⟩
  show p.map Char.toLower ++ sub.data.map Char.toLower ++ t.map Char.toLower
      = s.data.map Char.toLower
  rw [← hpt]
  simp

/-- C1: the claim states that a valid search request without numResults is
forwarded to the provider with a maximum result count of 50, the default
declared in SearchArgsSchema. The code contradicts it: when the options
object is absent entirely, the handler falls back through the JavaScript
|| to 5, not 50; the declared default 50 only takes effect when an options
object is present with numResults missing. -/
theorem C1_numResults_code_bug :
    ((handleCallTool
        { name := "search",
          arguments := { query := some (JPrim.jstr "hello world"), options := none } }
        (Except.ok []) "2024-01-01T00:00:00.000Z").2 =
      some { query := "hello world", region := "zh-cn",
             safeSearch := -1, maxResults := 5 }) ∧
    ((handleCallTool
        { name := "search",
          arguments := { query := some (JPrim.jstr "hello world"), options := some {} } }
        (Except.ok []) "2024-01-01T00:00:00.000Z").2 =
      some { query := "hello world", region := "zh-cn",
             safeSearch := -1, maxResults := 50 }) := by
  exact ⟨rfl, rfl⟩

/-- C2: the claim states that a search request without options yields a
successful response whose searchContext holds region zh-cn and safeSearch
MODERATE. The code contradicts the safeSearch half: the handler passes the
numeric enum value of SafeSearchType.MODERATE, whose stringification is
the numeral -1, so the echoed safeSearch is the string -1, never the
string MODERATE. The region half does hold. -/
theorem C2_searchContext_code_bug :
    ((handleCallTool
        { name := "search",
          arguments := { query := some (JPrim.jstr "hello world"), options := none } }
        (Except.ok []) "2024-01-01T00:00:00.000Z").1.isError = false) ∧
    ((handleCallTool
        { name := "search",
          arguments := { query := some (JPrim.jstr "hello world"), options := none } }
        (Except.ok []) "2024-01-01T00:00:00.000Z").1.contextOf =
      some { region := "zh-cn", safeSearch := "-1" }) ∧
    ("-1" ≠ "MODERATE") := by
  exact ⟨rfl, rfl, by decide⟩
/-- C3 counterexample: a search request whose query is the empty string is
not rejected by schema validation: safeParse accepts it, the provider is
called (with the empty query), and the response is a success envelope, not
an error envelope. -/
theorem C3_counterexample :
    (safeParse { query := some (JPrim.jstr ""), options := none } =
      Except.ok { query := "", options := none }) ∧
    ((handleCallTool
        { name := "search",
          arguments := { query := some (JPrim.jstr ""), options := none } }
        (Except.ok []) "2024-01-01T00:00:00.000Z").2 =
      some { query := "", region := "zh-cn", safeSearch := -1, maxResults := 5 }) ∧
    ((handleCallTool
        { name := "search",
          arguments := { query := some (JPrim.jstr ""), options := none } }
        (Except.ok []) "2024-01-01T00:00:00.000Z").1.isError = false) := by
  exact ⟨rfl, rfl, rfl⟩

/-- C3 (amended): schema validation requires the query field to be present
and to be a string, but does not require it nonempty. For every search
request whose query is missing or not a string, validation rejects the
request, an error envelope is returned, and the provider is never called;
an empty string query passes validation and reaches the provider. -/
theorem C3_amended (req : CallRequest) (provider : Except String (List RawHit))
    (now : String) (hname : req.name = "search")
    (hq : ∀ s, req.arguments.query ≠ some (JPrim.jstr s)) :
    (handleCallTool req provider now).2 = none ∧
    (handleCallTool req provider now).1.isError = true ∧
    ∃ e, safeParse req.arguments = Except.error e ∧
      (handleCallTool req provider now).1.errMessage =
        some ("Invalid arguments: " ++ e) := by
  have he : ∃ e, safeParse req.arguments = Except.error e := by
    unfold safeParse
    match h : req.arguments.query with
    | none => exact ⟨_, rfl⟩
    | some (JPrim.jnum _) => exact ⟨_, rfl⟩
    | some JPrim.jother => exact ⟨_, rfl⟩
    | some (JPrim.jstr s) => exact absurd h (hq s)
  obtain ⟨e, he⟩ := he
  unfold handleCallTool
  rw [if_neg (by simp [hname]), he]
  exact ⟨rfl, rfl, e, rfl, rfl⟩

/-- C3 witness: at a concrete request with a missing query field, the
amended theorem gives the rejection, the error envelope, and that the
provider is never called. -/
theorem C3_witness :
    (handleCallTool { name := "search", arguments := {} } (Except.ok []) "t").2 = none ∧
    (handleCallTool { name := "search", arguments := {} } (Except.ok []) "t").1.isError = true ∧
    ∃ e, safeParse ({} : RawArgs) = Except.error e ∧
      (handleCallTool { name := "search", arguments := {} } (Except.ok []) "t").1.errMessage =
        some ("Invalid arguments: " ++ e) :=
  C3_amended { name := "search", arguments := {} } (Except.ok []) "t" rfl
    (fun s h => by simp at h)

/-- C4: detectContentType applies exactly the first-match-wins priority of
the source: the docs substring rules give documentation, else the
code-hosting rules give documentation, else the social rules give social,
else article; every URL containing github.com is classified documentation,
and the declared value other is never produced. -/
theorem C4_detectContentType (r : RawHit) :
    (detectContentType r = "documentation" ↔
      ((jsIncludes (toLowerCase r.url) "docs." ||
        jsIncludes (toLowerCase r.url) "/docs/" ||
        jsIncludes (toLowerCase r.url) "/documentation/") = true ∨
       (jsIncludes (toLowerCase r.url) "github.com" ||
        jsIncludes (toLowerCase r.url) "stackoverflow.com") = true)) ∧
    (detectContentType r = "social" ↔
      ((jsIncludes (toLowerCase r.url) "docs." ||
        jsIncludes (toLowerCase r.url) "/docs/" ||
        jsIncludes (toLowerCase r.url) "/documentation/") = false ∧
       (jsIncludes (toLowerCase r.url) "github.com" ||
        jsIncludes (toLowerCase r.url) "stackoverflow.com") = false ∧
       (jsIncludes (toLowerCase r.url) "twitter.com" ||
        jsIncludes (toLowerCase r.url) "facebook.com" ||
        jsIncludes (toLowerCase r.url) "linkedin.com") = true)) ∧
    (detectContentType r = "article" ↔
      ((jsIncludes (toLowerCase r.url) "docs." ||
        jsIncludes (toLowerCase r.url) "/docs/" ||
        jsIncludes (toLowerCase r.url) "/documentation/") = false ∧
       (jsIncludes (toLowerCase r.url) "github.com" ||
        jsIncludes (toLowerCase r.url) "stackoverflow.com") = false ∧
       (jsIncludes (toLowerCase r.url) "twitter.com" ||
        jsIncludes (toLowerCase r.url) "facebook.com" ||
        jsIncludes (toLowerCase r.url) "linkedin.com") = false)) ∧
    (detectContentType r ≠ "other") ∧
    (jsIncludes r.url "github.com" = true → detectContentType r = "documentation") := by
  have hlast : jsIncludes r.url "github.com" = true →
      detectContentType r = "documentation" := by
    intro h
    have hg : jsIncludes (toLowerCase r.url) "github.com" = true :=
      jsIncludes_toLowerCase r.url "github.com" h
    unfold detectContentType
    by_cases h1 : (jsIncludes (toLowerCase r.url) "docs." ||
        jsIncludes (toLowerCase r.url) "/docs/" ||
        jsIncludes (toLowerCase r.url) "/documentation/") = true
    · simp [h1]
    · simp [h1, hg]
  refine ⟨?_, ?_, ?_, ?_, hlast⟩ <;>
  · unfold detectContentType
    by_cases h1 : (jsIncludes (toLowerCase r.url) "docs." ||
        jsIncludes (toLowerCase r.url) "/docs/" ||
        jsIncludes (toLowerCase r.url) "/documentation/") = true <;>
    by_cases h2 : (jsIncludes (toLowerCase r.url) "github.com" ||
        jsIncludes (toLowerCase r.url) "stackoverflow.com") = true <;>
    by_cases h3 : (jsIncludes (toLowerCase r.url) "twitter.com" ||
        jsIncludes (toLowerCase r.url) "facebook.com" ||
        jsIncludes (toLowerCase r.url) "linkedin.com") = true <;>
    simp [h1, h2, h3]

/-- C4 witness: the priority characterization applied at concrete URLs: a
twitter URL is social, and a URL containing github.com inside an otherwise
social hostname is documentation by the priority of the code-hosting rule. -/
theorem C4_witness :
    detectContentType { title := "", url := "https://twitter.com/a", description := "" }
      = "social" ∧
    detectContentType { title := "", url := "https://twitter.com/github.com/x", description := "" }
      = "documentation" :=
  ⟨(C4_detectContentType { title := "", url := "https://twitter.com/a", description := "" }).2.1.mpr
      (by decide),
   (C4_detectContentType { title := "", url := "https://twitter.com/github.com/x", description := "" }).2.2.2.2
      (by decide)⟩

/-- C5: detectLanguage returns zh-cn exactly when the query holds a
character in the range U+4E00 to U+9FA5, returns en otherwise, and in
particular returns en on every all-ASCII query. -/
theorem C5_detectLanguage (q : String) :
    (detectLanguage q = "zh-cn" ↔
      ∃ c ∈ q.data, 0x4e00 ≤ c.toNat ∧ c.toNat ≤ 0x9fa5) ∧
    ((¬ ∃ c ∈ q.data, 0x4e00 ≤ c.toNat ∧ c.toNat ≤ 0x9fa5) →
      detectLanguage q = "en") ∧
    ((∀ c ∈ q.data, c.toNat < 128) → detectLanguage q = "en") := by
  have hiff : (q.data.any (fun c => decide (0x4e00 ≤ c.toNat ∧ c.toNat ≤ 0x9fa5))) = true ↔
      ∃ c ∈ q.data, 0x4e00 ≤ c.toNat ∧ c.toNat ≤ 0x9fa5 := by
    simp [List.any_eq_true]
  refine ⟨?_, ?_, ?_⟩
  · unfold detectLanguage
    by_cases h : (q.data.any (fun c => decide (0x4e00 ≤ c.toNat ∧ c.toNat ≤ 0x9fa5))) = true
    · rw [if_pos h]
      exact iff_of_true rfl (hiff.mp h)
    · rw [if_neg h]
      constructor
      · intro habs
        exact absurd habs (by decide)
      · intro hex
        exact absurd (hiff.mpr hex) h
  · intro hno
    unfold detectLanguage
    rw [if_neg (fun h => hno (hiff.mp h))]
  · intro hascii
    unfold detectLanguage
    rw [if_neg ?_]
    intro h
    obtain ⟨c, hc, hlo, _⟩ := hiff.mp h
    have := hascii c hc
    omega

/-- C5 witness: the characterization applied at a Chinese and at an ASCII
query. -/
theorem C5_witness :
    detectLanguage "你好世界" = "zh-cn" ∧ detectLanguage "hello world" = "en" :=
  ⟨(C5_detectLanguage "你好世界").1.mpr (by decide),
   (C5_detectLanguage "hello world").2.2 (by decide)⟩

/-- Membership in a Set insertion: the old elements and the new one. -/
theorem mem_addTopic (x t : String) (acc : List String) :
    x ∈ addTopic acc t ↔ x ∈ acc ∨ x = t := by
  unfold addTopic
  by_cases h : t ∈ acc
  · rw [if_pos h]
    constructor
    · exact Or.inl
    · rintro (hx | rfl)
      · exact hx
      · exact h
  · rw [if_neg h]
    simp

/-- Membership after one detectTopics step over a single hit. -/
theorem mem_topicsStep (x : String) (acc : List String) (r : RawHit) :
    x ∈ topicsStep acc r ↔ x ∈ acc ∨
      (x = "technology" ∧ jsIncludes (toLowerCase r.title) "github" = true) ∨
      (x = "documentation" ∧ jsIncludes (toLowerCase r.title) "docs" = true) := by
  unfold topicsStep
  by_cases h1 : jsIncludes (toLowerCase r.title) "github" = true <;>
  by_cases h2 : jsIncludes (toLowerCase r.title) "docs" = true <;>
  (simp [h1, h2, mem_addTopic]; try tauto)

/-- Membership after folding detectTopics steps over a hit list. -/
theorem mem_foldl_topicsStep (x : String) (rs : List RawHit) (acc : List String) :
    x ∈ rs.foldl topicsStep acc ↔ x ∈ acc ∨
      ∃ r ∈ rs, (x = "technology" ∧ jsIncludes (toLowerCase r.title) "github" = true) ∨
        (x = "documentation" ∧ jsIncludes (toLowerCase r.title) "docs" = true) := by
  induction rs generalizing acc with
  | nil => simp
  | cons r rs ih =>
    rw [List.foldl_cons, ih]
    constructor
    · rintro (hacc | ⟨s, hs, hP⟩)
      · rw [mem_topicsStep] at hacc
        rcases hacc with h | h | h
        · exact Or.inl h
        · exact Or.inr ⟨r, List.mem_cons_self r rs, Or.inl h⟩
        · exact Or.inr ⟨r, List.mem_cons_self r rs, Or.inr h⟩
      · exact Or.inr ⟨s, List.mem_cons_of_mem r hs, hP⟩
    · rintro (hacc | ⟨s, hs, hP⟩)
      · exact Or.inl (by rw [mem_topicsStep]; exact Or.inl hacc)
      · rcases List.mem_cons.mp hs with rfl | hs2
        · exact Or.inl (by rw [mem_topicsStep]; exact Or.inr hP)
        · exact Or.inr ⟨s, hs2, hP⟩

/-- C6: the topics set of detectTopics holds technology exactly when some
title contains github case-insensitively, holds documentation exactly when
some title contains docs case-insensitively, and holds nothing else. -/
theorem C6_detectTopics (results : List RawHit) :
    ("technology" ∈ detectTopics results ↔
      ∃ r ∈ results, jsIncludes (toLowerCase r.title) "github" = true) ∧
    ("documentation" ∈ detectTopics results ↔
      ∃ r ∈ results, jsIncludes (toLowerCase r.title) "docs" = true) ∧
    (∀ t ∈ detectTopics results, t = "technology" ∨ t = "documentation") := by
  refine ⟨?_, ?_, ?_⟩
  · rw [detectTopics, mem_foldl_topicsStep]
    simp
  · rw [detectTopics, mem_foldl_topicsStep]
    simp
  · intro t ht
    rw [detectTopics, mem_foldl_topicsStep] at ht
    rcases ht with ht | ⟨r, _, ⟨rfl, _⟩ | ⟨rfl, _⟩⟩
    · simp at ht
    · exact Or.inl rfl
    · exact Or.inr rfl

/-- C6 witness: the characterization applied at a concrete single-hit list
whose title holds GitHub but not docs. -/
theorem C6_witness :
    "technology" ∈ detectTopics [{ title := "My GitHub repo", url := "u", description := "d" }] ∧
    ¬ "documentation" ∈ detectTopics [{ title := "My GitHub repo", url := "u", description := "d" }] :=
  ⟨(C6_detectTopics [{ title := "My GitHub repo", url := "u", description := "d" }]).1.mpr
      (by decide),
   fun h =>
    absurd ((C6_detectTopics [{ title := "My GitHub repo", url := "u", description := "d" }]).2.1.mp h)
      (by decide)⟩

/-- A hit list holding a hit with an unparsable URL makes normalization of
the whole list fail. -/
theorem buildItems_error_of_bad (hits : List RawHit)
    (h : ∃ r ∈ hits, parseHostname r.url = none) :
    ∃ e, buildItems hits = Except.error e := by
  induction hits with
  | nil => simp at h
  | cons r rs ih =>
    obtain ⟨x, hx, hbad⟩ := h
    rcases List.mem_cons.mp hx with rfl | hx2
    · have hb : buildItem x = Except.error ("Invalid URL: " ++ x.url) := by
        unfold buildItem
        rw [hbad]
      exact ⟨"Invalid URL: " ++ x.url, by simp [buildItems, hb]⟩
    · cases hbi : buildItem r with
      | error e => exact ⟨e, by simp [buildItems, hbi]⟩
      | ok item =>
        obtain ⟨e, he⟩ := ih ⟨x, hx2, hbad⟩
        exact ⟨e, by simp [buildItems, hbi, he]⟩

/-- C7: when the provider returns a hit whose URL fails hostname
extraction, the whole request produces an error envelope: the result
carries the error flag and no partial success response exists. -/
theorem C7_malformed_url (req : CallRequest) (pa : ParsedArgs) (hits : List RawHit)
    (now : String) (hname : req.name = "search")
    (hp : safeParse req.arguments = Except.ok pa)
    (hbad : ∃ r ∈ hits, parseHostname r.url = none) :
    (handleCallTool req (Except.ok hits) now).1.isError = true ∧
    (∀ resp, (handleCallTool req (Except.ok hits) now).1 ≠ HandlerResult.success resp) := by
  obtain ⟨e, he⟩ := buildItems_error_of_bad hits hbad
  have hred : (handleCallTool req (Except.ok hits) now).1 =
      HandlerResult.failure (mkSearchError e req.arguments) := by
    unfold handleCallTool
    rw [if_neg (by simp [hname]), hp]
    simp [processSearchResults, he]
  rw [hred]
  exact ⟨rfl, fun resp h => by cases h⟩

/-- C7 witness: the failure propagation at a concrete request whose single
hit has an unparsable URL. -/
theorem C7_witness :
    (handleCallTool
        { name := "search", arguments := { query := some (JPrim.jstr "q"), options := none } }
        (Except.ok [{ title := "t", url := "not a url", description := "" }]) "t").1.isError
      = true ∧
    (∀ resp, (handleCallTool
        { name := "search", arguments := { query := some (JPrim.jstr "q"), options := none } }
        (Except.ok [{ title := "t", url := "not a url", description := "" }]) "t").1 ≠
      HandlerResult.success resp) :=
  C7_malformed_url
    { name := "search", arguments := { query := some (JPrim.jstr "q"), options := none } }
    { query := "q", options := none }
    [{ title := "t", url := "not a url", description := "" }] "t" rfl rfl
    ⟨{ title := "t", url := "not a url", description := "" }, by decide, by decide⟩

/-- A successful parse pins the raw query field to the parsed query
string. -/
theorem query_of_safeParse_ok (args : RawArgs) (pa : ParsedArgs)
    (hp : safeParse args = Except.ok pa) :
    args.query = some (JPrim.jstr pa.query) := by
  unfold safeParse at hp
  split at hp
  · cases hp
  · cases hp
  · cases hp
  · rename_i q heq
    split at hp
    · cases hp
      exact heq
    · split at hp
      · cases hp
      · cases hp
        exact heq

/-- C8: a provider failure produces an error envelope whose message is the
provider error message, whose suggestion is the fixed static hint, and
whose context query echoes the query of the original request. -/
theorem C8_provider_error (req : CallRequest) (pa : ParsedArgs) (msg now : String)
    (hname : req.name = "search") (hp : safeParse req.arguments = Except.ok pa) :
    ∃ err, (handleCallTool req (Except.error msg) now).1 = HandlerResult.failure err ∧
      err.message = msg ∧
      err.suggestion = suggestionText ∧
      err.context.query = req.arguments.query ∧
      req.arguments.query = some (JPrim.jstr pa.query) := by
  refine ⟨mkSearchError msg req.arguments, ?_, rfl, rfl, rfl,
    query_of_safeParse_ok req.arguments pa hp⟩
  unfold handleCallTool
  rw [if_neg (by simp [hname]), hp]

/-- C8 witness: the envelope properties at a concrete request and provider
failure. -/
theorem C8_witness :
    ∃ err, (handleCallTool
        { name := "search",
          arguments := { query := some (JPrim.jstr "hello"), options := none } }
        (Except.error "network failure") "t").1 = HandlerResult.failure err ∧
      err.message = "network failure" ∧
      err.suggestion = suggestionText ∧
      err.context.query =
        ({ query := some (JPrim.jstr "hello"), options := none } : RawArgs).query ∧
      ({ query := some (JPrim.jstr "hello"), options := none } : RawArgs).query =
        some (JPrim.jstr ({ query := "hello", options := none } : ParsedArgs).query) :=
  C8_provider_error
    { name := "search", arguments := { query := some (JPrim.jstr "hello"), options := none } }
    { query := "hello", options := none } "network failure" "t" rfl rfl

/-- C9: an invoke whose operation name is not search produces an error
envelope whose message holds the unrecognized name, and an invoke whose
arguments fail validation produces an error envelope whose message
describes the invalid arguments; in both cases the provider is never
called. -/
theorem C9_unknown_tool_invalid_args (req : CallRequest)
    (provider : Except String (List RawHit)) (now : String) :
    (req.name ≠ "search" →
      (handleCallTool req provider now).2 = none ∧
      (handleCallTool req provider now).1.isError = true ∧
      (handleCallTool req provider now).1.errMessage =
        some ("Unknown tool: " ++ req.name) ∧
      ∃ m, (handleCallTool req provider now).1.errMessage = some m ∧
        jsIncludes m req.name = true) ∧
    (∀ e, req.name = "search" → safeParse req.arguments = Except.error e →
      (handleCallTool req provider now).2 = none ∧
      (handleCallTool req provider now).1.isError = true ∧
      (handleCallTool req provider now).1.errMessage =
        some ("Invalid arguments: " ++ e)) := by
  constructor
  · intro hne
    have hred : handleCallTool req provider now =
        (HandlerResult.failure
          (mkSearchError ("Unknown tool: " ++ req.name) req.arguments), none) := by
      unfold handleCallTool
      rw [if_pos hne]
    rw [hred]
    refine ⟨rfl, rfl, rfl, "Unknown tool: " ++ req.name, rfl, ?_⟩
    apply decide_eq_true
    exact ⟨"Unknown tool: ".data, [], by simp [String.data_append]⟩
  · intro e hname he
    have hred : handleCallTool req provider now =
        (HandlerResult.failure
          (mkSearchError ("Invalid arguments: " ++ e) req.arguments), none) := by
      unfold handleCallTool
      rw [if_neg (by simp [hname]), he]
    rw [hred]
    exact ⟨rfl, rfl, rfl⟩

/-- C9 witness: the unknown-tool case at the name unknown_op and the
invalid-arguments case at safeSearch BANANA, the provider never being
called in either. -/
theorem C9_witness :
    ((handleCallTool { name := "unknown_op", arguments := {} } (Except.ok []) "t").2 = none ∧
     (handleCallTool { name := "unknown_op", arguments := {} } (Except.ok []) "t").1.isError = true ∧
     (handleCallTool { name := "unknown_op", arguments := {} } (Except.ok []) "t").1.errMessage =
       some ("Unknown tool: " ++ "unknown_op") ∧
     ∃ m, (handleCallTool { name := "unknown_op", arguments := {} } (Except.ok []) "t").1.errMessage =
       some m ∧ jsIncludes m "unknown_op" = true) ∧
    ((handleCallTool
        { name := "search",
          arguments := { query := some (JPrim.jstr "q"),
                         options := some { safeSearch := some (JPrim.jstr "BANANA") } } }
        (Except.ok []) "t").2 = none ∧
     (handleCallTool
        { name := "search",
          arguments := { query := some (JPrim.jstr "q"),
                         options := some { safeSearch := some (JPrim.jstr "BANANA") } } }
        (Except.ok []) "t").1.isError = true ∧
     (handleCallTool
        { name := "search",
          arguments := { query := some (JPrim.jstr "q"),
                         options := some { safeSearch := some (JPrim.jstr "BANANA") } } }
        (Except.ok []) "t").1.errMessage =
       some ("Invalid arguments: " ++ "Invalid enum value at options.safeSearch")) :=
  ⟨(C9_unknown_tool_invalid_args { name := "unknown_op", arguments := {} }
      (Except.ok []) "t").1 (by decide),
   (C9_unknown_tool_invalid_args
      { name := "search",
        arguments := { query := some (JPrim.jstr "q"),
                       options := some { safeSearch := some (JPrim.jstr "BANANA") } } }
      (Except.ok []) "t").2 "Invalid enum value at options.safeSearch" rfl rfl⟩

/-- C10: detectContentType is invariant under lowercasing the URL first,
since it lowercases the URL itself before every substring test; a URL with
the mixed-case spelling GitHub.COM is classified documentation. The spec
does not state this case-insensitivity. -/
theorem C10_lowercase (r : RawHit) :
    detectContentType
        { title := r.title, url := toLowerCase r.url, description := r.description } =
      detectContentType r ∧
    (r.url = "https://GitHub.COM/x" → detectContentType r = "documentation") := by
  constructor
  · unfold detectContentType
    simp [toLowerCase_toLowerCase]
  · intro h
    unfold detectContentType
    rw [h]
    decide

/-- C10 witness: the mixed-case GitHub URL classified at a concrete hit. -/
theorem C10_witness :
    detectContentType { title := "", url := "https://GitHub.COM/x", description := "" } =
      "documentation" :=
  (C10_lowercase { title := "", url := "https://GitHub.COM/x", description := "" }).2 rfl
